import Mathlib

/-!
Verification of the code-search demo pipeline (line extraction, embedding
client, index writer, query engine, driver) against its specification.

The JavaScript source is shallowly embedded: JavaScript values that flow
through the pipeline (parsed JSON response bodies, metadata objects,
query-result cells) are modelled by the inductive type `JVal`; exceptions by
`JsError` through `Except`; the external collaborators (filesystem, embedding
HTTP endpoint, vector database) by an explicit `Env` record of oracles; and
console output by a trace of structured `LogEntry` values, one constructor
per console call, carrying the raw (pre-rendering) payloads.

Numeric leaves of `JVal` are carried as `Int`: the program never computes
with the numbers it transports (embedding components, distances), it only
moves them around and tests array-ness, so any opaque numeric carrier is
faithful. String indexing of a JavaScript string (only reachable through
shapes this program never observes beyond an `Array.isArray` test, which is
false either way) is modelled as `undefined`.
-/

namespace CodeSearch

/-- JavaScript values transported by the pipeline (parsed JSON and friends). -/
inductive JVal where
  | undefined : JVal
  | num : Int → JVal
  | str : String → JVal
  | arr : List JVal → JVal
  | obj : List (String × JVal) → JVal

/-- JavaScript exceptions observed by this program: `new Error(msg)` values
and TypeErrors raised by indexing or dereferencing `undefined`. -/
inductive JsError where
  | jsErrorMsg : String → JsError
  | typeError : String → JsError
deriving DecidableEq, Repr

/-- `Array.isArray`. -/
def isArr : JVal → Bool
  | .arr _ => true
  | _ => false

/-- Property lookup on the field list of an object literal; missing keys give
`undefined`, as in JavaScript. -/
def lookupField : List (String × JVal) → String → JVal
  | [], _ => .undefined
  | (k, v) :: rest, key => if k = key then v else lookupField rest key

/-- Total part of JavaScript property access `v[name]` for receivers on which
access does not throw (everything except `undefined`). -/
def jsFieldT : JVal → String → JVal
  | .obj fs, name => lookupField fs name
  | .arr l, name => if name = "length" then .num (Int.ofNat l.length) else .undefined
  | .str s, name => if name = "length" then .num (Int.ofNat s.length) else .undefined
  | _, _ => .undefined

/-- JavaScript property access `v[name]`: accessing a property of `undefined`
throws a TypeError, every other receiver yields a value (possibly
`undefined`). -/
def jsFieldE : JVal → String → Except JsError JVal
  | .undefined, name => .error (.typeError ("Cannot read properties of undefined: " ++ name))
  | v, name => .ok (jsFieldT v name)

/-- JavaScript element access `v[0]`: throws on `undefined`, yields the head
of an array (or `undefined` past the end), the property "0" of an object, and
`undefined` on other primitives. -/
def jsIndex0 : JVal → Except JsError JVal
  | .undefined => .error (.typeError "Cannot read properties of undefined: 0")
  | .arr [] => .ok .undefined
  | .arr (x :: _) => .ok x
  | .obj fs => .ok (lookupField fs "0")
  | .num _ => .ok .undefined
  | .str _ => .ok .undefined

/-- Optional-chaining length `v?.length` payload of the two debug logs. -/
def optChainLength : Option JVal → JVal
  | none => .undefined
  | some v => jsFieldT v "length"

/-! ### String helpers

The source uses `content.split('\n')`, `line.trim()`, `file.endsWith(ext)`
and `path.join`; they are modelled by structural recursion over the
character list so that concrete runs reduce inside the kernel. -/

/-- Is the first list a prefix of the second (used for suffix tests below). -/
def charListPre : List Char → List Char → Bool
  | [], _ => true
  | _ :: _, [] => false
  | a :: as, b :: bs => a = b && charListPre as bs

/-- JavaScript `s.endsWith(t)`. -/
def strEndsWith (s t : String) : Bool :=
  charListPre t.data.reverse s.data.reverse

/-- JavaScript `s.startsWith(t)` (used only by `pathJoin`). -/
def strStartsWith (s t : String) : Bool :=
  charListPre t.data s.data

/-- The whitespace characters stripped by `String.prototype.trim` (ASCII
part; the program only ever meets ASCII source text). -/
def isWsChar (c : Char) : Bool :=
  c = ' ' || c = '\t' || c = '\n' || c = '\r' || c = '\x0b' || c = '\x0c'

/-- JavaScript `line.trim()`. -/
def jsTrim (s : String) : String :=
  String.mk (((s.data.dropWhile isWsChar).reverse.dropWhile isWsChar).reverse)

/-- Helper of `splitLines`: accumulates the current chunk (reversed). -/
def splitLinesAux : List Char → List Char → List String
  | [], acc => [String.mk acc.reverse]
  | c :: cs, acc =>
      if c = '\n' then String.mk acc.reverse :: splitLinesAux cs []
      else splitLinesAux cs (c :: acc)

/-- JavaScript `content.split('\n')`. -/
def splitLines (s : String) : List String :=
  splitLinesAux s.data []

/-- `path.join(directory, file)`: the one normalization this program can hit
is the removal of a leading "./" of the directory. -/
def pathJoin (d f : String) : String :=
  (if strStartsWith d "./" then String.mk (d.data.drop 2) else d) ++ "/" ++ f

/-- Extension whitelist of the Line Extractor (".js", ".py", ".txt"). -/
def hasCodeExt (file : String) : Bool :=
  strEndsWith file ".js" || strEndsWith file ".py" || strEndsWith file ".txt"

/-! ### Line Extractor -/

/-- One extracted line with its metadata (`{content, file, lineNumber}`). -/
structure LineRecord where
  content : String
  file : String
  lineNumber : Nat
deriving DecidableEq, Repr

/-- Per-file body of `readCodeFiles`: split on newlines, build one record per
line with its 1-based index, then keep the records whose trimmed content is
non-empty (JavaScript string truthiness). -/
def fileLineRecords (file content : String) : List LineRecord :=
  (((splitLines content).enum.map
      (fun p => { content := jsTrim p.2, file := file, lineNumber := p.1 + 1 })).filter
    (fun r => !(r.content == "")))

/-! ### Embedding Client -/

/-- One HTTP request as issued by the embedding client. -/
structure Request where
  url : String
  method : String
  headers : List (String × String)
  body : JVal

def embedUrl : String :=
  "http://127.0.0.1:8080/pipeline/feature-extraction/sentence-transformers/all-MiniLM-L6-v2"

/-- The request for one text: the text wrapped in a one-element batch. -/
def singleReq (text : String) : Request :=
  { url := embedUrl
    method := "POST"
    headers := [("Accept", "application/json"), ("Content-Type", "application/json")]
    body := .obj [("inputs", .arr [.str text])] }

/-- Outcome of one `fetch`: a response with a status and a parsed JSON body
(whose parsing may itself fail), or a transport-level rejection. -/
inductive HttpResult where
  | resp : Nat → Except JsError JVal → HttpResult
  | netError : String → HttpResult

/-- The message of the error thrown on a non-success HTTP status. -/
def httpErrMsg (status : Nat) : String :=
  "HTTP error! status: " ++ toString status

/-- Shape extraction of one response body:
`Array.isArray(data) ? data[0] : data.embeddings[0]`. -/
def extractEmbedding (data : JVal) : Except JsError JVal :=
  if isArr data then jsIndex0 data
  else
    match jsFieldE data "embeddings" with
    | .error e => .error e
    | .ok em => jsIndex0 em

/-- The loop of `generateEmbeddings`: one request per text, in order, indexed
from `i`; the pair is the result (or first error) and the requests issued. -/
def genLoop (oracle : Nat → String → HttpResult) :
    Nat → List String → Except JsError (List JVal) × List Request
  | _, [] => (.ok [], [])
  | i, t :: ts =>
    match oracle i t with
    | .netError m => (.error (.typeError m), [singleReq t])
    | .resp status body =>
      if 200 ≤ status ∧ status < 300 then
        match body with
        | .error e => (.error e, [singleReq t])
        | .ok data =>
          match extractEmbedding data with
          | .error e => (.error e, [singleReq t])
          | .ok emb =>
            match genLoop oracle (i + 1) ts with
            | (.error e, reqs) => (.error e, singleReq t :: reqs)
            | (.ok rest, reqs) => (.ok (emb :: rest), singleReq t :: reqs)
      else (.error (.jsErrorMsg (httpErrMsg status)), [singleReq t])

/-- What the loop would push for one response, were it reached: `some` exactly
when the request succeeds end to end. -/
def embedOfResponse : HttpResult → Option JVal
  | .netError _ => none
  | .resp status body =>
    if 200 ≤ status ∧ status < 300 then
      match body with
      | .error _ => none
      | .ok data => (extractEmbedding data).toOption
    else none

/-! ### Console trace

One constructor per console call of the source, carrying the raw values that
were passed (before string rendering); the `err…` constructors are the calls
on the error stream (`console.error`). -/

/-- One Match of the Query Engine (all four fields are store-provided
JavaScript values). -/
structure Match where
  file : JVal
  lineNumber : JVal
  content : JVal
  distance : JVal

inductive LogEntry where
  | indexingMsg : LogEntry
  | noFilesMsg : LogEntry
  | textsDbg : List String → LogEntry
  | storedEmbLen : JVal → LogEntry
  | storedEmbEx : Option JVal → LogEntry
  | lengthsDbg : Nat → Nat → Nat → Nat → LogEntry
  | storedCount : Nat → LogEntry
  | queryEmbLen : JVal → LogEntry
  | queryEmbEx : Option JVal → LogEntry
  | searchingMsg : String → LogEntry
  | noMatchesMsg : LogEntry
  | resultsHeader : LogEntry
  | matchLine : Match → LogEntry
  | errReadFiles : JsError → LogEntry
  | errGenEmbeddings : JsError → LogEntry
  | errStore : JsError → LogEntry
  | errSearch : JsError → LogEntry
  | errMain : JsError → LogEntry

/-- `generateEmbeddings`: the loop from index 0 plus the catch of the
function, which logs the error to the error stream and rethrows it. -/
def generateEmbeddings (oracle : Nat → String → HttpResult) (texts : List String) :
    Except JsError (List JVal) × List Request × List LogEntry :=
  match genLoop oracle 0 texts with
  | (.error e, reqs) => (.error e, reqs, [.errGenEmbeddings e])
  | (.ok es, reqs) => (.ok es, reqs, [])

/-! ### Embedding-shape normalization (flattening) -/

/-- Indexing-time flattening of one embedding value (the callback of
`embeddings.map` in `storeCodeInVectorDB`):
`Array.isArray(e[0]) && Array.isArray(e[0][0]) ? e[0][0] : Array.isArray(e[0]) ? e[0] : e`,
with short-circuit evaluation and the possible TypeError of `e[0]`. -/
def flattenStoreE (e : JVal) : Except JsError JVal :=
  match jsIndex0 e with
  | .error err => .error err
  | .ok e0 =>
    if isArr e0 then
      match jsIndex0 e0 with
      | .error err => .error err
      | .ok e00 => if isArr e00 then .ok e00 else .ok e0
    else .ok e

/-- `Array.prototype.map` with a throwing callback (the map propagates the
first exception). -/
def mapExcept (f : JVal → Except JsError JVal) : List JVal → Except JsError (List JVal)
  | [] => .ok []
  | x :: xs =>
    match f x with
    | .error e => .error e
    | .ok y =>
      match mapExcept f xs with
      | .error e => .error e
      | .ok ys => .ok (y :: ys)

/-- JavaScript `a[0]` for a value that is statically an array (total). -/
def listIdx0 : List JVal → JVal
  | [] => .undefined
  | x :: _ => x

/-- Query-time flattening in `searchCode` (lines building
`flatQueryEmbedding`): a one-element array around
`Array.isArray(q[0][0]) && Array.isArray(q[0][0][0]) ? q[0][0][0] : Array.isArray(q[0][0]) ? q[0][0] : q[0]`
where `q` is the array returned by `generateEmbeddings([query])`. -/
def flatQueryE (q : List JVal) : Except JsError (List JVal) :=
  match jsIndex0 (listIdx0 q) with
  | .error err => .error err
  | .ok x =>
    if isArr x then
      match jsIndex0 x with
      | .error err => .error err
      | .ok y => if isArr y then .ok [y] else .ok [x]
    else .ok [listIdx0 q]

/-! ### Index Writer -/

/-- The metadata object stored per line (`{file, lineNumber}`). -/
structure Meta where
  file : String
  lineNumber : Nat
deriving DecidableEq, Repr

/-- The argument of the one `collection.add` call. -/
structure AddCall where
  ids : List String
  embeddings : List JVal
  metadatas : List Meta
  documents : List String

/-- What the validation-and-add block (the length check followed by
`collection.add`) did. -/
inductive AddStep where
  | mismatched : JsError → AddStep
  | addFailed : JsError → AddStep
  | added : AddCall → AddStep

/-- The message of the length-mismatch error, naming all four lengths. -/
def mismatchMsg (ni ne nt nm : Nat) : String :=
  "Mismatched lengths: ids=" ++ toString ni ++ ", embeddings=" ++ toString ne ++
    ", texts=" ++ toString nt ++ ", metadatas=" ++ toString nm

/-- Lines 113-129 of the source: validate the four parallel lengths (the
check compares `ids` against each of the other three), throwing the mismatch
error on failure, else perform the single `collection.add` call (whose own
outcome the store environment decides). -/
def addBlock (addRes : AddCall → Option JsError) (ids : List String)
    (embeddings flatEmbeddings : List JVal) (texts : List String)
    (metadatas : List Meta) : AddStep :=
  if ids.length ≠ embeddings.length ∨ ids.length ≠ texts.length ∨
      ids.length ≠ metadatas.length then
    .mismatched (.jsErrorMsg
      (mismatchMsg ids.length embeddings.length texts.length metadatas.length))
  else
    match addRes ⟨ids, flatEmbeddings, metadatas, texts⟩ with
    | some e => .addFailed e
    | none => .added ⟨ids, flatEmbeddings, metadatas, texts⟩

/-- The result cells of one vector-database query: parallel arrays (one row
per query vector) of metadatas, documents and distances, with arbitrary
store-provided values inside. -/
structure QueryResult where
  metadatas : List (List JVal)
  documents : List (List JVal)
  distances : List (List JVal)

/-- The environment of external collaborators: directory listing, file
contents, embedding endpoint, and the vector-database operations. -/
structure Env where
  dirListing : Except JsError (List String)
  fileContents : String → Except JsError String
  oracle : Nat → String → HttpResult
  getOrCreateRes : Except JsError Unit
  addRes : AddCall → Option JsError
  getCollectionRes : Except JsError Unit
  queryFn : List JVal → Nat → QueryResult

def CODE_DIR : String := "./code_files"

/-- The loop of `readCodeFiles` over the directory listing: each whitelisted
file is read and its records appended; the first error aborts the loop. -/
def readFilesBody (env : Env) : List String → Except JsError (List LineRecord)
  | [] => .ok []
  | n :: ns =>
    if hasCodeExt n then
      match env.fileContents (pathJoin CODE_DIR n) with
      | .error e => .error e
      | .ok content =>
        match readFilesBody env ns with
        | .error e => .error e
        | .ok rest => .ok (fileLineRecords n content ++ rest)
    else readFilesBody env ns

/-- `readCodeFiles`: directory listing plus the loop, with the catch that
logs any error and returns the empty list; the third component records the
caught error, if any. -/
def readCodeFiles (env : Env) : List LineRecord × List LogEntry × Option JsError :=
  match env.dirListing with
  | .error e => ([], [.errReadFiles e], some e)
  | .ok names =>
    match readFilesBody env names with
    | .error e => ([], [.errReadFiles e], some e)
    | .ok data => (data, [], none)

/-- The ids built by the Index Writer: positional `line_<index>`. -/
def mkIds (codeData : List LineRecord) : List String :=
  codeData.enum.map (fun p => "line_" ++ toString p.1)

/-- The metadata objects built by the Index Writer. -/
def mkMetadatas (codeData : List LineRecord) : List Meta :=
  codeData.map (fun d => { file := d.file, lineNumber := d.lineNumber })

/-- What `storeCodeInVectorDB` did, besides logging. -/
inductive StoreOutcome where
  | noFiles : StoreOutcome
  | added : AddCall → StoreOutcome
  | caught : JsError → StoreOutcome

/-- `storeCodeInVectorDB`: get-or-create the collection, extract the lines,
embed them, flatten, build the parallel arrays, validate and add — all inside
one try/catch that logs any error to the error stream and returns normally. -/
def storeCodeInVectorDB (env : Env) : List LogEntry × StoreOutcome :=
  match env.getOrCreateRes with
  | .error e => ([.errStore e], .caught e)
  | .ok _ =>
    let rr := readCodeFiles env
    let codeData := rr.1
    if codeData.length = 0 then
      (rr.2.1 ++ [.noFilesMsg], .noFiles)
    else
      let texts := codeData.map (fun d => d.content)
      let g := generateEmbeddings env.oracle texts
      match g.1 with
      | .error e => (rr.2.1 ++ [.textsDbg texts] ++ g.2.2 ++ [.errStore e], .caught e)
      | .ok embeddings =>
        match mapExcept flattenStoreE embeddings with
        | .error e => (rr.2.1 ++ [.textsDbg texts] ++ g.2.2 ++ [.errStore e], .caught e)
        | .ok flatEmbeddings =>
          let ids := mkIds codeData
          let metadatas := mkMetadatas codeData
          let dbg := [.storedEmbLen (optChainLength flatEmbeddings.head?),
                      .storedEmbEx flatEmbeddings.head?,
                      .lengthsDbg ids.length embeddings.length texts.length metadatas.length]
          match addBlock env.addRes ids embeddings flatEmbeddings texts metadatas with
          | .mismatched e =>
            (rr.2.1 ++ [.textsDbg texts] ++ g.2.2 ++ dbg ++ [.errStore e], .caught e)
          | .addFailed e =>
            (rr.2.1 ++ [.textsDbg texts] ++ g.2.2 ++ dbg ++ [.errStore e], .caught e)
          | .added c =>
            (rr.2.1 ++ [.textsDbg texts] ++ g.2.2 ++ dbg ++ [.storedCount codeData.length],
             .added c)

/-! ### Query Engine -/

/-- The body of the result-formatting callback for index `i` and metadata
cell `md`: the object literal evaluates `metadata.file`, `metadata.lineNumber`,
`results.documents[0][i]` and `results.distances[0][i]` in that order, any of
which may throw. -/
def matchOfIdx (r : QueryResult) (i : Nat) (md : JVal) : Except JsError Match :=
  match jsFieldE md "file" with
  | .error e => .error e
  | .ok f =>
    match jsFieldE md "lineNumber" with
    | .error e => .error e
    | .ok ln =>
      match r.documents with
      | [] => .error (.typeError "Cannot read properties of undefined: documents row")
      | d0 :: _ =>
        match r.distances with
        | [] => .error (.typeError "Cannot read properties of undefined: distances row")
        | s0 :: _ => .ok ⟨f, ln, d0.getD i .undefined, s0.getD i .undefined⟩

/-- `Array.prototype.map` with indices and a throwing callback. -/
def mapIdxME (f : Nat → JVal → Except JsError Match) :
    Nat → List JVal → Except JsError (List Match)
  | _, [] => .ok []
  | i, md :: rest =>
    match f i md with
    | .error e => .error e
    | .ok m =>
      match mapIdxME f (i + 1) rest with
      | .error e => .error e
      | .ok ms => .ok (m :: ms)

/-- `results.metadatas[0].map(...)`: indexing an absent first row yields
`undefined`, whose `.map` throws. -/
def formatMatches (r : QueryResult) : Except JsError (List Match) :=
  match r.metadatas with
  | [] => .error (.typeError "results.metadatas[0] is undefined: map is not a function")
  | m0 :: _ => mapIdxME (matchOfIdx r) 0 m0

/-- `searchCode`: embed the query, flatten, get the collection, query it and
format the matches — all inside one try/catch that logs any error and returns
the empty list; the third component records the caught error, if any. -/
def searchCode (env : Env) (query : String) (nResults : Nat) :
    List Match × List LogEntry × Option JsError :=
  let g := generateEmbeddings env.oracle [query]
  match g.1 with
  | .error e => ([], g.2.2 ++ [.errSearch e], some e)
  | .ok qarr =>
    match flatQueryE qarr with
    | .error e => ([], g.2.2 ++ [.errSearch e], some e)
    | .ok fe =>
      let dbg := [.queryEmbLen (optChainLength fe.head?), .queryEmbEx fe.head?]
      match env.getCollectionRes with
      | .error e => ([], g.2.2 ++ dbg ++ [.errSearch e], some e)
      | .ok _ =>
        match formatMatches (env.queryFn fe nResults) with
        | .error e => ([], g.2.2 ++ dbg ++ [.errSearch e], some e)
        | .ok ms => (ms, g.2.2 ++ dbg, none)

/-! ### Driver -/

/-- The result-printing loop of `main`: each match prints one line, after
calling `match.distance.toFixed(3)`, which throws unless the distance is a
number; the pair is the lines printed before any throw and the error. -/
def printMatches : List Match → List LogEntry × Option JsError
  | [] => ([], none)
  | m :: ms =>
    match m.distance with
    | .num _ =>
      let rest := printMatches ms
      (.matchLine m :: rest.1, rest.2)
    | _ => ([], some (.typeError "match.distance.toFixed is not a function"))

def demoQuery : String := "function factorial"

/-- The body of `main`: index, then run the demonstration query and print its
results; the second component is the error escaping the body, if any. -/
def mainBody (env : Env) : List LogEntry × Option JsError :=
  let s := storeCodeInVectorDB env
  let q := searchCode env demoQuery 5
  let pre := [.indexingMsg] ++ s.1 ++ [.searchingMsg demoQuery] ++ q.2.1
  if q.1.length = 0 then (pre ++ [.noMatchesMsg], none)
  else
    let p := printMatches q.1
    (pre ++ [.resultsHeader] ++ p.1, p.2)

/-- `main().catch(error => console.error(...))`: the whole program; any error
escaping `main` is logged to the error stream and the process still ends
normally. -/
def programRun (env : Env) : List LogEntry :=
  match mainBody env with
  | (log, none) => log
  | (log, some e) => log ++ [.errMain e]

/-- The Match sequence described by the specification of the Query Engine:
one Match per element of the first metadata row, the i-th built from
metadatas[0][i] (file and lineNumber), documents[0][i] (content) and
distances[0][i] (distance), in the store-provided order. -/
def matchZipSpec (m0 d0 s0 : List JVal) : List Match :=
  m0.enum.map (fun p =>
    { file := jsFieldT p.2 "file", lineNumber := jsFieldT p.2 "lineNumber",
      content := d0.getD p.1 .undefined, distance := s0.getD p.1 .undefined })

/-- A concrete environment in which every collaborator succeeds, used as a
witness input. -/
def demoEnv : Env :=
  { dirListing := .ok ["quick_sort.js"]
    fileContents := fun _ => .ok "function quickSort(arr)\n  return arr\n"
    oracle := fun _ _ => .resp 200 (.ok (.arr [.arr [.num 1, .num 2]]))
    getOrCreateRes := .ok ()
    addRes := fun _ => none
    getCollectionRes := .ok ()
    queryFn := fun _ _ =>
      { metadatas := [[.obj [("file", .str "quick_sort.js"), ("lineNumber", .num 1)]]]
        documents := [[.str "function quickSort(arr)"]]
        distances := [[.num 0]] } }

/-! ### Helper lemmas -/

/-- A successful loop returns one embedding per input, in input order, each
obtained from the response to its own single-text request. -/
theorem genLoop_ok (oracle : Nat → String → HttpResult) :
    ∀ (ts : List String) (i : Nat) (es : List JVal) (reqs : List Request),
      genLoop oracle i ts = (.ok es, reqs) →
      es.length = ts.length ∧ reqs = ts.map singleReq ∧
        ∀ j, j < ts.length →
          embedOfResponse (oracle (i + j) (ts.getD j "")) = some (es.getD j .undefined) := by
  intro ts
  induction ts with
  | nil =>
    intro i es reqs h
    simp only [genLoop, Prod.mk.injEq, Except.ok.injEq] at h
    obtain ⟨h1, h2⟩ := h
    subst h1; subst h2
    exact ⟨rfl, rfl, by intro j hj; simp at hj⟩
  | cons t ts ih =>
    intro i es reqs h
    cases ho : oracle i t with
    | netError m => simp [genLoop, ho] at h
    | resp status body =>
      by_cases hst : 200 ≤ status ∧ status < 300
      · cases body with
        | error e => simp [genLoop, ho, hst] at h
        | ok data =>
          cases hx : extractEmbedding data with
          | error e => simp [genLoop, ho, hst, hx] at h
          | ok emb =>
            rcases hrec : genLoop oracle (i + 1) ts with ⟨res, reqs2⟩
            cases res with
            | error e => simp [genLoop, ho, hst, hx, hrec] at h
            | ok rest =>
              simp only [genLoop, ho, if_pos hst, hx, hrec, Prod.mk.injEq,
                Except.ok.injEq] at h
              obtain ⟨h1, h2⟩ := h
              subst h1; subst h2
              obtain ⟨hlen, hreqs, helem⟩ := ih (i + 1) rest reqs2 hrec
              refine ⟨by simp [hlen], by simp [hreqs], ?_⟩
              intro j hj
              cases j with
              | zero => simp [embedOfResponse, ho, hst, hx, Except.toOption]
              | succ j =>
                have hp := helem j (by simpa using hj)
                have hidx : i + (j + 1) = i + 1 + j := by omega
                rw [List.getD_cons_succ, List.getD_cons_succ, hidx]
                exact hp
      · simp [genLoop, ho, hst] at h

/-- A successful `generateEmbeddings` run gives one embedding per text. -/
theorem generateEmbeddings_ok_length (oracle : Nat → String → HttpResult)
    (texts : List String) (es : List JVal)
    (h : (generateEmbeddings oracle texts).1 = .ok es) : es.length = texts.length := by
  rcases hg : genLoop oracle 0 texts with ⟨res, reqs⟩
  cases res with
  | error e => simp [generateEmbeddings, hg] at h
  | ok es0 =>
    simp only [generateEmbeddings, hg, Except.ok.injEq] at h
    subst h
    exact (genLoop_ok oracle texts 0 es0 reqs hg).1

/-! ### C1: indexing-time and query-time flattening agree -/

/-- C1: the flattening applied by the Index Writer to each stored embedding
(double-nested array to e[0][0], singly nested to e[0], otherwise e) and the
flattening applied by the Query Engine to the query embedding are the same
function: on every embedding value they produce the identical flat vector
(and the identical TypeError on the degenerate shapes), and in particular on
the one-element array returned by a successful `generateEmbeddings([query])`
call. -/
theorem flatten_store_query_agree :
    (∀ e : JVal, flatQueryE [e] = (flattenStoreE e).map (fun v => [v])) ∧
    (∀ (oracle : Nat → String → HttpResult) (q : String) (qa : List JVal),
      (generateEmbeddings oracle [q]).1 = .ok qa →
      flatQueryE qa = (flattenStoreE (qa.getD 0 .undefined)).map (fun v => [v])) := by
  have base : ∀ e : JVal, flatQueryE [e] = (flattenStoreE e).map (fun v => [v]) := by
    intro e
    simp only [flatQueryE, flattenStoreE, listIdx0]
    cases h0 : jsIndex0 e with
    | error err => simp [Except.map]
    | ok x =>
      by_cases hx : isArr x
      · simp only [if_pos hx]
        cases h1 : jsIndex0 x with
        | error err => simp [Except.map]
        | ok y =>
          by_cases hy : isArr y
          · simp [if_pos hy, Except.map]
          · simp [if_neg hy, Except.map]
      · simp [if_neg hx, Except.map]
  refine ⟨base, ?_⟩
  intro oracle q qa h
  have hlen : qa.length = 1 := by
    simpa using generateEmbeddings_ok_length oracle [q] qa h
  cases qa with
  | nil => simp at hlen
  | cons e rest =>
    cases rest with
    | nil => exact base e
    | cons f rest2 => simp at hlen

/-! ### C3: the length check fails fast and skips the add -/

/-- C3: whenever any of the four parallel sequences differ in length, the
validation block of the Index Writer produces the explicit mismatch error
whose message names all four lengths, and the add call is not performed. -/
theorem addBlock_mismatch (addRes : AddCall → Option JsError) (ids : List String)
    (embeddings flatEmbeddings : List JVal) (texts : List String) (metadatas : List Meta)
    (h : ¬(ids.length = embeddings.length ∧ embeddings.length = texts.length ∧
        texts.length = metadatas.length)) :
    addBlock addRes ids embeddings flatEmbeddings texts metadatas =
      .mismatched (.jsErrorMsg
        (mismatchMsg ids.length embeddings.length texts.length metadatas.length)) ∧
    ∀ c, addBlock addRes ids embeddings flatEmbeddings texts metadatas ≠ .added c := by
  have hc : ids.length ≠ embeddings.length ∨ ids.length ≠ texts.length ∨
      ids.length ≠ metadatas.length := by omega
  constructor
  · simp only [addBlock, if_pos hc]
  · intro c
    simp only [addBlock, if_pos hc]
    intro hcontra
    exact AddStep.noConfusion hcontra

/-- Witness for C3: three ids against two embeddings raise the mismatch error
naming the lengths 3, 2, 3, 3, and nothing is added. -/
theorem addBlock_mismatch_witness :
    addBlock (fun _ => none) ["line_0", "line_1", "line_2"] [.num 1, .num 2]
        [.num 1, .num 2] ["a", "b", "c"] [⟨"f.js", 1⟩, ⟨"f.js", 2⟩, ⟨"f.js", 3⟩] =
      .mismatched (.jsErrorMsg (mismatchMsg 3 2 3 3)) ∧
    ∀ c, addBlock (fun _ => none) ["line_0", "line_1", "line_2"] [.num 1, .num 2]
        [.num 1, .num 2] ["a", "b", "c"] [⟨"f.js", 1⟩, ⟨"f.js", 2⟩, ⟨"f.js", 3⟩] ≠
      .added c :=
  addBlock_mismatch (fun _ => none) ["line_0", "line_1", "line_2"] [.num 1, .num 2]
    [.num 1, .num 2] ["a", "b", "c"] [⟨"f.js", 1⟩, ⟨"f.js", 2⟩, ⟨"f.js", 3⟩]
    (by intro hc; exact absurd hc.1 (by decide))

/-! ### C5: one request and one embedding per input, in input order -/

/-- C5: when every request succeeds, `generateEmbeddings` returns exactly one
embedding per input string in input order (the j-th result is extracted from
the response to the j-th request), having issued exactly one request per
input, in input order, each wrapping a single text in a one-element batch. -/
theorem generateEmbeddings_one_per_input (oracle : Nat → String → HttpResult)
    (texts : List String) (es : List JVal)
    (h : (generateEmbeddings oracle texts).1 = .ok es) :
    es.length = texts.length ∧
    (generateEmbeddings oracle texts).2.1 = texts.map singleReq ∧
    ∀ j, j < texts.length →
      embedOfResponse (oracle j (texts.getD j "")) = some (es.getD j .undefined) := by
  rcases hg : genLoop oracle 0 texts with ⟨res, reqs⟩
  cases res with
  | error e => simp [generateEmbeddings, hg] at h
  | ok es0 =>
    simp only [generateEmbeddings, hg, Except.ok.injEq] at h
    subst h
    obtain ⟨h1, h2, h3⟩ := genLoop_ok oracle texts 0 es0 reqs hg
    refine ⟨h1, by simp [generateEmbeddings, hg, h2], ?_⟩
    intro j hj
    simpa using h3 j hj

/-- Witness for C5 at a concrete oracle and two inputs. -/
theorem generateEmbeddings_one_per_input_witness :
    ([JVal.arr [.num 1, .num 2], JVal.arr [.num 1, .num 2]] : List JVal).length =
        (["alpha", "beta"] : List String).length ∧
    (generateEmbeddings (fun _ _ => .resp 200 (.ok (.arr [.arr [.num 1, .num 2]])))
        ["alpha", "beta"]).2.1 = (["alpha", "beta"] : List String).map singleReq ∧
    ∀ j, j < (["alpha", "beta"] : List String).length →
      embedOfResponse ((fun _ _ => HttpResult.resp 200 (.ok (.arr [.arr [.num 1, .num 2]]))) j
          ((["alpha", "beta"] : List String).getD j "")) =
        some (([JVal.arr [.num 1, .num 2], JVal.arr [.num 1, .num 2]] : List JVal).getD
          j .undefined) :=
  generateEmbeddings_one_per_input
    (fun _ _ => .resp 200 (.ok (.arr [.arr [.num 1, .num 2]]))) ["alpha", "beta"]
    [JVal.arr [.num 1, .num 2], JVal.arr [.num 1, .num 2]] rfl

/-! ### C6: one failing request aborts the whole batch -/

/-- The loop up to the first non-success status: the error is thrown there,
no further input is processed and no request is retried. -/
theorem genLoop_fail (oracle : Nat → String → HttpResult) :
    ∀ (ts : List String) (i k st : Nat) (body : Except JsError JVal),
      k < ts.length →
      (∀ j, j < k → (embedOfResponse (oracle (i + j) (ts.getD j ""))).isSome = true) →
      oracle (i + k) (ts.getD k "") = .resp st body →
      ¬(200 ≤ st ∧ st < 300) →
      genLoop oracle i ts =
        (.error (.jsErrorMsg (httpErrMsg st)), (ts.take (k + 1)).map singleReq) := by
  intro ts
  induction ts with
  | nil => intro i k st body hk _ _ _; simp at hk
  | cons t ts ih =>
    intro i k st body hk hprev hfail hst
    cases k with
    | zero =>
      have hf : oracle i t = .resp st body := by simpa using hfail
      simp [genLoop, hf, hst]
    | succ k =>
      have h0 : (embedOfResponse (oracle i t)).isSome = true := by
        simpa using hprev 0 (Nat.succ_pos k)
      cases ho : oracle i t with
      | netError m => rw [ho] at h0; simp [embedOfResponse] at h0
      | resp st0 b0 =>
        rw [ho] at h0
        by_cases hst0 : 200 ≤ st0 ∧ st0 < 300
        · cases b0 with
          | error e => simp [embedOfResponse, hst0] at h0
          | ok data =>
            cases hx : extractEmbedding data with
            | error e => simp [embedOfResponse, hst0, hx, Except.toOption] at h0
            | ok emb =>
              have hfail2 : oracle (i + 1 + k) (ts.getD k "") = .resp st body := by
                have hidx : i + (k + 1) = i + 1 + k := by omega
                rwa [List.getD_cons_succ, hidx] at hfail
              have hrec := ih (i + 1) k st body (by simpa using hk)
                (fun j hj => by
                  have hp := hprev (j + 1) (by omega)
                  have hidx : i + (j + 1) = i + 1 + j := by omega
                  rwa [List.getD_cons_succ, hidx] at hp)
                hfail2 hst
              simp [genLoop, ho, hst0, hx, hrec]
        · simp [embedOfResponse, hst0] at h0

/-- C6: if the requests before index k succeed and the k-th receives a
non-success HTTP status, the whole operation fails with the HTTP error: no
result sequence is returned, the inputs after k are never requested, no
request is retried, and the error is logged and propagated to the caller. -/
theorem generateEmbeddings_fail_aborts (oracle : Nat → String → HttpResult)
    (texts : List String) (k st : Nat) (body : Except JsError JVal)
    (hk : k < texts.length)
    (hprev : ∀ j, j < k → (embedOfResponse (oracle j (texts.getD j ""))).isSome = true)
    (hfail : oracle k (texts.getD k "") = .resp st body)
    (hst : ¬(200 ≤ st ∧ st < 300)) :
    (generateEmbeddings oracle texts).1 = .error (.jsErrorMsg (httpErrMsg st)) ∧
    (generateEmbeddings oracle texts).2.1 = (texts.take (k + 1)).map singleReq ∧
    (generateEmbeddings oracle texts).2.2 =
      [.errGenEmbeddings (.jsErrorMsg (httpErrMsg st))] := by
  have hrec := genLoop_fail oracle texts 0 k st body hk (by simpa using hprev)
    (by simpa using hfail) hst
  refine ⟨?_, ?_, ?_⟩ <;> simp [generateEmbeddings, hrec]

/-- Witness for C6: the second of three requests returns status 500; the
operation fails with the HTTP error after exactly two requests. -/
theorem generateEmbeddings_fail_aborts_witness :
    (generateEmbeddings
        (fun i _ => if i = 0 then .resp 200 (.ok (.arr [.arr [.num 1]]))
          else .resp 500 (.ok .undefined)) ["a", "b", "c"]).1 =
        .error (.jsErrorMsg (httpErrMsg 500)) ∧
    (generateEmbeddings
        (fun i _ => if i = 0 then .resp 200 (.ok (.arr [.arr [.num 1]]))
          else .resp 500 (.ok .undefined)) ["a", "b", "c"]).2.1 =
        ((["a", "b", "c"] : List String).take 2).map singleReq ∧
    (generateEmbeddings
        (fun i _ => if i = 0 then .resp 200 (.ok (.arr [.arr [.num 1]]))
          else .resp 500 (.ok .undefined)) ["a", "b", "c"]).2.2 =
        [.errGenEmbeddings (.jsErrorMsg (httpErrMsg 500))] :=
  generateEmbeddings_fail_aborts
    (fun i _ => if i = 0 then .resp 200 (.ok (.arr [.arr [.num 1]]))
      else .resp 500 (.ok .undefined)) ["a", "b", "c"] 1 500 (.ok .undefined)
    (by decide) (by decide) rfl (by decide)

/-! ### C2: line records count, content and numbering -/

theorem countP_enumFrom (pred : String → Bool) :
    ∀ (l : List String) (n : Nat),
      ((l.enumFrom n).countP (fun q => pred q.2)) = l.countP pred := by
  intro l
  induction l with
  | nil => intro n; rfl
  | cons a l ih => intro n; simp [List.enumFrom, List.countP_cons, ih]

theorem mem_enumFrom_getD :
    ∀ (l : List String) (n : Nat) (p : Nat × String), p ∈ l.enumFrom n →
      n ≤ p.1 ∧ p.1 - n < l.length ∧ l.getD (p.1 - n) "" = p.2 := by
  intro l
  induction l with
  | nil => intro n p hp; simp [List.enumFrom] at hp
  | cons a l ih =>
    intro n p hp
    simp only [List.enumFrom, List.mem_cons] at hp
    rcases hp with rfl | hp
    · exact ⟨Nat.le_refl n, by simp, by simp⟩
    · obtain ⟨h1, h2, h3⟩ := ih (n + 1) p hp
      refine ⟨by omega, by simp; omega, ?_⟩
      have hs : p.1 - n = (p.1 - (n + 1)) + 1 := by omega
      rw [hs, List.getD_cons_succ]
      exact h3

/-- C2: for each file, the Line Extractor produces one record per line that
is non-empty after trimming; each record holds the trimmed text of its line,
and its lineNumber is the 1-based position of the line in the raw newline
split, assigned before the emptiness filter (so numbering is not compacted
by filtering). -/
theorem fileLineRecords_spec (f c : String) :
    (fileLineRecords f c).length =
      ((splitLines c).countP (fun l => !(jsTrim l == ""))) ∧
    ∀ r ∈ fileLineRecords f c,
      r.content = jsTrim ((splitLines c).getD (r.lineNumber - 1) "") ∧
      r.content ≠ "" ∧ 1 ≤ r.lineNumber ∧ r.lineNumber ≤ (splitLines c).length := by
  constructor
  · unfold fileLineRecords
    rw [← List.countP_eq_length_filter, List.countP_map]
    exact countP_enumFrom (fun l => !(jsTrim l == "")) (splitLines c) 0
  · intro r hr
    unfold fileLineRecords at hr
    rw [List.mem_filter] at hr
    obtain ⟨hmem, hpred⟩ := hr
    rw [List.mem_map] at hmem
    obtain ⟨q, hq, hgq⟩ := hmem
    obtain ⟨-, hlt, hgd⟩ := mem_enumFrom_getD (splitLines c) 0 q (by simpa [List.enum] using hq)
    subst hgq
    refine ⟨?_, ?_, ?_, ?_⟩
    · simpa using congrArg jsTrim hgd.symm
    · simpa using hpred
    · simp
    · simp only [Nat.succ_le_iff]
      simpa using hlt

/-! ### Error catching and logging helpers -/

theorem read_caught_logged (env : Env) (e : JsError)
    (h : (readCodeFiles env).2.2 = some e) :
    LogEntry.errReadFiles e ∈ (readCodeFiles env).2.1 := by
  unfold readCodeFiles at h ⊢
  split at h
  · simp_all
  · split at h <;> simp_all

theorem gen_error_logged (oracle : Nat → String → HttpResult) (texts : List String)
    (e : JsError) (h : (generateEmbeddings oracle texts).1 = .error e) :
    LogEntry.errGenEmbeddings e ∈ (generateEmbeddings oracle texts).2.2 := by
  rcases hg : genLoop oracle 0 texts with ⟨res, reqs⟩
  cases res <;> simp_all [generateEmbeddings, hg]

theorem store_caught_logged (env : Env) (e : JsError)
    (h : (storeCodeInVectorDB env).2 = .caught e) :
    LogEntry.errStore e ∈ (storeCodeInVectorDB env).1 := by
  simp only [storeCodeInVectorDB] at h ⊢
  split at h
  · simp_all
  · split at h
    · simp_all
    · split at h
      · simp_all
      · split at h
        · simp_all
        · split at h <;> simp_all

theorem store_caught_not_added (env : Env) (e : JsError)
    (h : (storeCodeInVectorDB env).2 = .caught e) :
    ∀ c, (storeCodeInVectorDB env).2 ≠ .added c := by
  intro c hc
  rw [h] at hc
  exact StoreOutcome.noConfusion hc

theorem search_caught_logged (env : Env) (q : String) (n : Nat) (e : JsError)
    (h : (searchCode env q n).2.2 = some e) :
    LogEntry.errSearch e ∈ (searchCode env q n).2.1 := by
  simp only [searchCode] at h ⊢
  split at h
  · simp_all
  · split at h
    · simp_all
    · split at h
      · simp_all
      · split at h <;> simp_all

theorem search_fail_empty (env : Env) (q : String) (n : Nat) (e : JsError)
    (h : (searchCode env q n).2.2 = some e) :
    (searchCode env q n).1 = [] := by
  simp only [searchCode] at h ⊢
  split at h
  · simp_all
  · split at h
    · simp_all
    · split at h
      · simp_all
      · split at h <;> simp_all

theorem search_missing_empty (env : Env) (q : String) (n : Nat) (e : JsError)
    (hc : env.getCollectionRes = .error e) :
    (searchCode env q n).1 = [] ∧ (searchCode env q n).2.2 ≠ none := by
  simp only [searchCode]
  rcases hg : (generateEmbeddings env.oracle [q]).1 with e1 | qa
  · simp [hg]
  · rcases hf : flatQueryE qa with e1 | fe
    · simp [hf]
    · simp [hf, hc]

theorem main_caught_logged (env : Env) (e : JsError)
    (h : (mainBody env).2 = some e) :
    programRun env = (mainBody env).1 ++ [LogEntry.errMain e] := by
  unfold programRun
  rcases hm : mainBody env with ⟨log, err⟩
  rw [hm] at h
  simp only at h
  subst h
  rfl

/-! ### C4: errors are logged to the error stream, the process ends normally -/

/-- C4: in every environment, every caught internal error is written to the
error stream (the read, embedding, store, search and top-level handlers each
log their error), the run always completes with a log (the top-level catch
turns even an error escaping main into an error-stream entry rather than an
abnormal termination), and any error caught during indexing means nothing
was added, i.e. the mismatch error (like every store-side error) aborts the
indexing operation. -/
theorem errors_logged_process_normal (env : Env) :
    (∀ e, (readCodeFiles env).2.2 = some e →
        LogEntry.errReadFiles e ∈ (readCodeFiles env).2.1) ∧
    (∀ texts e, (generateEmbeddings env.oracle texts).1 = .error e →
        LogEntry.errGenEmbeddings e ∈ (generateEmbeddings env.oracle texts).2.2) ∧
    (∀ e, (storeCodeInVectorDB env).2 = .caught e →
        LogEntry.errStore e ∈ (storeCodeInVectorDB env).1 ∧
        ∀ c, (storeCodeInVectorDB env).2 ≠ .added c) ∧
    (∀ q n e, (searchCode env q n).2.2 = some e →
        LogEntry.errSearch e ∈ (searchCode env q n).2.1) ∧
    (∀ e, (mainBody env).2 = some e →
        programRun env = (mainBody env).1 ++ [LogEntry.errMain e]) :=
  ⟨fun e h => read_caught_logged env e h,
   fun texts e h => gen_error_logged env.oracle texts e h,
   fun e h => ⟨store_caught_logged env e h, store_caught_not_added env e h⟩,
   fun q n e h => search_caught_logged env q n e h,
   fun e h => main_caught_logged env e h⟩

/-! ### C10: the store catches everything and main always reaches the query -/

/-- C10: `storeCodeInVectorDB` never propagates an error: in every
environment the driver run goes on to the demonstration query right after
the store log, whatever the store outcome (including every caught indexing
error), and each caught indexing error is only logged to the error stream. -/
theorem store_never_propagates (env : Env) :
    (∃ rest, programRun env =
      LogEntry.indexingMsg :: ((storeCodeInVectorDB env).1 ++
        LogEntry.searchingMsg demoQuery :: rest)) ∧
    (∀ e, (storeCodeInVectorDB env).2 = .caught e →
      LogEntry.errStore e ∈ programRun env) := by
  have hshape : ∃ rest, programRun env =
      LogEntry.indexingMsg :: ((storeCodeInVectorDB env).1 ++
        LogEntry.searchingMsg demoQuery :: rest) := by
    rcases hq : searchCode env demoQuery 5 with ⟨ms, qlog, qerr⟩
    by_cases hlen : ms.length = 0
    · refine ⟨qlog ++ [.noMatchesMsg], ?_⟩
      simp [programRun, mainBody, hq, hlen]
    · rcases hp : printMatches ms with ⟨plog, perr⟩
      cases perr with
      | none =>
        refine ⟨qlog ++ [.resultsHeader] ++ plog, ?_⟩
        simp [programRun, mainBody, hq, hlen, hp]
      | some e =>
        refine ⟨qlog ++ [.resultsHeader] ++ plog ++ [.errMain e], ?_⟩
        simp [programRun, mainBody, hq, hlen, hp]
  refine ⟨hshape, ?_⟩
  intro e h
  obtain ⟨rest, hr⟩ := hshape
  rw [hr]
  have hmem := store_caught_logged env e h
  simp [List.mem_append, hmem]

/-! ### C7: the Query Engine soft-fails to an empty list -/

/-- C7: on any caught failure `searchCode` returns the empty match list
instead of propagating the error, and in particular a missing collection
yields the empty list (with an error caught internally, not an unhandled
failure). -/
theorem searchCode_soft_fail (env : Env) (q : String) (n : Nat) :
    (∀ e, (searchCode env q n).2.2 = some e → (searchCode env q n).1 = []) ∧
    (∀ e, env.getCollectionRes = .error e →
      (searchCode env q n).1 = [] ∧ (searchCode env q n).2.2 ≠ none) :=
  ⟨fun e h => search_fail_empty env q n e h,
   fun e h => search_missing_empty env q n e h⟩

/-! ### C9: the mismatch branch is unreachable from a normal embedding run -/

theorem mkIds_length (codeData : List LineRecord) :
    (mkIds codeData).length = codeData.length := by
  simp [mkIds]

theorem mkMetadatas_length (codeData : List LineRecord) :
    (mkMetadatas codeData).length = codeData.length := by
  simp [mkMetadatas]

/-- C9: when `generateEmbeddings` returns normally (one value per input),
the four parallel sequences built by the Index Writer from the same
`codeData` all have equal length, so the length check can never fire: the
mismatch branch is unreachable. -/
theorem mismatch_branch_unreachable (oracle : Nat → String → HttpResult)
    (codeData : List LineRecord) (es : List JVal)
    (h : (generateEmbeddings oracle (codeData.map (fun d => d.content))).1 = .ok es) :
    ((mkIds codeData).length = es.length ∧
     (mkIds codeData).length = (codeData.map (fun d => d.content)).length ∧
     (mkIds codeData).length = (mkMetadatas codeData).length) ∧
    ∀ (addRes : AddCall → Option JsError) (flats : List JVal) (e : JsError),
      addBlock addRes (mkIds codeData) es flats (codeData.map (fun d => d.content))
        (mkMetadatas codeData) ≠ .mismatched e := by
  have hlen := generateEmbeddings_ok_length oracle (codeData.map (fun d => d.content)) es h
  have h1 : (mkIds codeData).length = es.length := by
    simp [mkIds_length, hlen]
  have h2 : (mkIds codeData).length = (codeData.map (fun d => d.content)).length := by
    simp [mkIds_length]
  have h3 : (mkIds codeData).length = (mkMetadatas codeData).length := by
    simp [mkIds_length, mkMetadatas_length]
  refine ⟨⟨h1, h2, h3⟩, ?_⟩
  intro addRes flats e
  have hcond : ¬((mkIds codeData).length ≠ es.length ∨
      (mkIds codeData).length ≠ (codeData.map (fun d => d.content)).length ∨
      (mkIds codeData).length ≠ (mkMetadatas codeData).length) := by
    push_neg
    exact ⟨h1, h2, h3⟩
  simp only [addBlock, if_neg hcond]
  cases addRes ⟨mkIds codeData, flats, mkMetadatas codeData,
      codeData.map (fun d => d.content)⟩ <;> simp

/-- Witness for C9 at a concrete oracle and one extracted line. -/
theorem mismatch_branch_unreachable_witness :
    ((mkIds [⟨"function quickSort(arr)", "quick_sort.js", 1⟩]).length =
        ([JVal.arr [.num 1]] : List JVal).length ∧
     (mkIds [⟨"function quickSort(arr)", "quick_sort.js", 1⟩]).length =
        (([⟨"function quickSort(arr)", "quick_sort.js", 1⟩] :
          List LineRecord).map (fun d => d.content)).length ∧
     (mkIds [⟨"function quickSort(arr)", "quick_sort.js", 1⟩]).length =
        (mkMetadatas [⟨"function quickSort(arr)", "quick_sort.js", 1⟩]).length) ∧
    ∀ (addRes : AddCall → Option JsError) (flats : List JVal) (e : JsError),
      addBlock addRes (mkIds [⟨"function quickSort(arr)", "quick_sort.js", 1⟩])
        [JVal.arr [.num 1]] flats
        (([⟨"function quickSort(arr)", "quick_sort.js", 1⟩] :
          List LineRecord).map (fun d => d.content))
        (mkMetadatas [⟨"function quickSort(arr)", "quick_sort.js", 1⟩]) ≠
      .mismatched e :=
  mismatch_branch_unreachable (fun _ _ => .resp 200 (.ok (.arr [.arr [.num 1]])))
    [⟨"function quickSort(arr)", "quick_sort.js", 1⟩] [JVal.arr [.num 1]] rfl

/-! ### C8: matches zip the store rows in store order -/

theorem jsFieldE_of_ne_undef (v : JVal) (name : String) (h : v ≠ .undefined) :
    jsFieldE v name = .ok (jsFieldT v name) := by
  cases v with
  | undefined => exact absurd rfl h
  | num x => rfl
  | str s => rfl
  | arr l => rfl
  | obj fs => rfl

theorem mapIdxME_matchOfIdx (r : QueryResult) (d0 s0 : List JVal)
    (drest srest : List (List JVal))
    (hd : r.documents = d0 :: drest) (hs : r.distances = s0 :: srest) :
    ∀ (sub : List JVal) (i : Nat), (∀ md ∈ sub, md ≠ .undefined) →
      mapIdxME (matchOfIdx r) i sub =
        .ok ((sub.enumFrom i).map (fun p =>
          { file := jsFieldT p.2 "file", lineNumber := jsFieldT p.2 "lineNumber",
            content := d0.getD p.1 .undefined, distance := s0.getD p.1 .undefined })) := by
  intro sub
  induction sub with
  | nil => intro i _; simp [mapIdxME, List.enumFrom]
  | cons md rest ih =>
    intro i hmd
    have h1 : jsFieldE md "file" = .ok (jsFieldT md "file") :=
      jsFieldE_of_ne_undef md "file" (hmd md (by simp))
    have h2 : jsFieldE md "lineNumber" = .ok (jsFieldT md "lineNumber") :=
      jsFieldE_of_ne_undef md "lineNumber" (hmd md (by simp))
    have hr := ih (i + 1) (fun x hx => hmd x (by simp [hx]))
    simp [mapIdxME, matchOfIdx, h1, h2, hd, hs, hr, List.enumFrom]

/-- C8: for a successful store query response (non-empty rows of metadatas,
documents and distances, and metadata cells that are not undefined),
`searchCode` returns one Match per element of the first metadata row, the
i-th taking file and lineNumber from metadatas[0][i], content from
documents[0][i] and distance from distances[0][i], in the store-provided
order, with no error caught (and hence no re-sorting of any kind). -/
theorem searchCode_zips_store_rows (env : Env) (q : String) (n : Nat)
    (qa fe m0 d0 s0 : List JVal) (mrest drest srest : List (List JVal))
    (hg : (generateEmbeddings env.oracle [q]).1 = .ok qa)
    (hf : flatQueryE qa = .ok fe)
    (hc : env.getCollectionRes = .ok ())
    (hq : env.queryFn fe n = ⟨m0 :: mrest, d0 :: drest, s0 :: srest⟩)
    (hmd : ∀ md ∈ m0, md ≠ .undefined) :
    (searchCode env q n).1 = matchZipSpec m0 d0 s0 ∧
    (searchCode env q n).2.2 = none := by
  have hfmt : formatMatches ⟨m0 :: mrest, d0 :: drest, s0 :: srest⟩ =
      .ok (matchZipSpec m0 d0 s0) := by
    simp only [formatMatches]
    have hmap := mapIdxME_matchOfIdx ⟨m0 :: mrest, d0 :: drest, s0 :: srest⟩ d0 s0
      drest srest rfl rfl m0 0 hmd
    simpa [matchZipSpec, List.enum] using hmap
  constructor <;> simp [searchCode, hg, hf, hc, hq, hfmt]

/-- Witness for C8 at the concrete all-success environment. -/
theorem searchCode_zips_store_rows_witness :
    (searchCode demoEnv "function factorial" 5).1 =
      matchZipSpec [.obj [("file", .str "quick_sort.js"), ("lineNumber", .num 1)]]
        [.str "function quickSort(arr)"] [.num 0] ∧
    (searchCode demoEnv "function factorial" 5).2.2 = none :=
  searchCode_zips_store_rows demoEnv "function factorial" 5
    [.arr [.num 1, .num 2]] [.arr [.num 1, .num 2]]
    [.obj [("file", .str "quick_sort.js"), ("lineNumber", .num 1)]]
    [.str "function quickSort(arr)"] [.num 0] [] [] []
    rfl rfl rfl rfl (by intro md h; simp at h; simp [h])

end CodeSearch
